import Mathlib

/-!
Shallow embedding of `src/tcpedit/edit_packet.c` (tcpreplay packet
field-rewriting engine).

Modelling conventions:
* All 32-bit address/seed quantities are the numeric values of the byte
  sequences in network byte order (big-endian host model).  On this
  representation `htonl` and `ntohl` are the identity, so the model writes
  `tcpedit.seed` where the C writes `htonl(tcpedit->seed)`, and likewise
  drops `ntohl` around addresses.  The same convention applies to the
  16-bit `htons`/`ntohs` pairs.
* `uint32_t` arithmetic is `Nat` arithmetic reduced `% 2^32` at the points
  where C truncates (assignments to 32-bit objects); `uint8_t` values are
  `Nat`s below 256.
* IPv6 addresses (`struct tcpr_in6_addr`) are lists of 16 byte values;
  the aliased `__u6_addr32[4]` view used by `randomize_ipv6_addr` is
  recovered by composing 4-byte chunks big-endian.
* Linked `tcpr_cidrmap_t` chains are ordered lists; the C `next` pointer
  walk becomes a cursor over list tails.
* Fallible paths (NULL dereference, C undefined behaviour, out-of-bounds
  indexing) return `none` / `Except.error` instead of going wrong.
-/

/-- POSIX address family AF_INET. -/
def AF_INET : Nat := 2

/-- POSIX address family AF_INET6. -/
def AF_INET6 : Nat := 10

/-- IP protocol number for TCP. -/
def IPPROTO_TCP : Nat := 6

/-- IP protocol number for UDP. -/
def IPPROTO_UDP : Nat := 17

/-- IP protocol number for ICMP. -/
def IPPROTO_ICMP : Nat := 1

/-- Size of a UDP header (TCPR_UDP_H). -/
def TCPR_UDP_H : Nat := 8

/-- Low 13 bits of the IPv4 offset field (IP_OFFMASK). -/
def IP_OFFMASK : Nat := 0x1fff

/-- tcpedit return status: success. -/
def TCPEDIT_OK : Int := 0

/-- tcpedit return status: warning. -/
def TCPEDIT_WARN : Int := 1

/-- tcpedit return status: error. -/
def TCPEDIT_ERROR : Int := -1

/-- TTL rewrite modes (tcpedit.h: TCPEDIT_TTL_MODE_{OFF,SET,ADD,SUB}). -/
inductive TtlMode where
  | off
  | set
  | add
  | sub
deriving DecidableEq, Repr

/-- Fixlen (truncation repair) modes (TCPEDIT_FIXLEN_{OFF,PAD,TRUNC}). -/
inductive Fixlen where
  | off
  | pad
  | trunc
deriving DecidableEq, Repr

/-- Packet travel direction (TCPR_DIR_C2S / TCPR_DIR_S2C). -/
inductive TcprDir where
  | c2s
  | s2c
deriving DecidableEq, Repr

/-- `tcpr_cidr_t`: address family, prefix length, and the network value
(the `u` union holds the IPv4 word and the IPv6 byte array). -/
structure tcpr_cidr_t where
  family : Nat
  masklen : Nat
  network : Nat := 0
  network6 : List Nat := []
deriving DecidableEq, Repr

/-- `tcpr_cidrmap_t` entry: a from-CIDR / to-CIDR pair.  The C `next`
pointer is modelled by list order in the containing chain.  `from` is a
Lean keyword, so the fields are `cfrom` / `cto`. -/
structure tcpr_cidrmap_t where
  cfrom : tcpr_cidr_t
  cto : tcpr_cidr_t
deriving DecidableEq, Repr

/-- The subset of `tcpedit_t` read by the functions under verification.
`l2len` stands for the resolved link-layer header length that the C code
obtains from the external DLT layer (`layer2len(tcpedit)` /
`tcpedit->dlt_ctx->l2len`); per the spec this value is supplied by an
external classification component, so it is an input here. -/
structure tcpedit_t where
  seed : Nat := 0
  skip_broadcast : Bool := false
  ttl_mode : TtlMode := TtlMode.off
  ttl_value : Nat := 0
  fixlen : Fixlen := Fixlen.off
  mtu : Nat := 1500
  mtu_truncate : Bool := false
  l2len : Int := 14
  srcipmap : Option tcpr_cidrmap_t := none
  dstipmap : Option tcpr_cidrmap_t := none
  cidrmap1 : List tcpr_cidrmap_t := []
  cidrmap2 : List tcpr_cidrmap_t := []
deriving DecidableEq, Repr

/-- A default (all-edits-off) configuration used for concrete instances. -/
def edit0 : tcpedit_t := {}

/-- `pcap_pkthdr`: captured length and on-wire length. -/
structure pcap_pkthdr where
  caplen : Nat
  len : Nat
deriving DecidableEq, Repr

/-- `is_unicast_ipv4` (edit_packet.c:876): returns 1 unless the address is
strictly above 3758096384 (0xE0000000, i.e. 224.0.0.0).  Note the strict
comparison: 224.0.0.0 itself is reported as unicast, although the comment
above the C test says that multicast/broadcast is 224.0.0.0 *or greater*. -/
def is_unicast_ipv4 (_tcpedit : tcpedit_t) (ip : Nat) : Bool :=
  if 3758096384 < ip then false else true

/-- `is_multicast_ipv6` (edit_packet.c:892): first byte equal to 0xff. -/
def is_multicast_ipv6 (_tcpedit : tcpedit_t) (addr : List Nat) : Bool :=
  addr.headD 0 == 0xff

/-- The XOR-minus-AND mix applied to one 32-bit word by both
`randomize_ipv4_addr` and the `randomize_ipv6_addr` loop:
`(w ^ hseed) - (w & hseed)` in wrapping `uint32_t` arithmetic, where
`hseed` is the seed already converted to network byte order (the identity
in this big-endian model). -/
def rand_u32 (hseed w : Nat) : Nat :=
  ((w ^^^ hseed) + 4294967296 - (w &&& hseed)) % 4294967296

/-- `randomize_ipv4_addr` (edit_packet.c:112). -/
def randomize_ipv4_addr (tcpedit : tcpedit_t) (ip : Nat) : Nat :=
  if tcpedit.skip_broadcast && !(is_unicast_ipv4 tcpedit ip) then ip
  else rand_u32 tcpedit.seed ip

/-- Big-endian composition of one `__u6_addr32` word from four bytes. -/
def word_of_bytes (b0 b1 b2 b3 : Nat) : Nat :=
  ((b0 * 256 + b1) * 256 + b2) * 256 + b3

/-- Big-endian decomposition of one 32-bit word back into four bytes. -/
def bytes_of_word (w : Nat) : List Nat :=
  [w / 16777216 % 256, w / 65536 % 256, w / 256 % 256, w % 256]

/-- The `for (i = 0; i < 4; ++i)` word loop of `randomize_ipv6_addr`,
expressed over the byte view: each aligned 4-byte chunk is one
`__u6_addr32` word (a 16-byte address yields exactly 4 words). -/
def randomize_words (hseed : Nat) : List Nat → List Nat
  | b0 :: b1 :: b2 :: b3 :: rest =>
      bytes_of_word (rand_u32 hseed (word_of_bytes b0 b1 b2 b3)) ++
        randomize_words hseed rest
  | rest => rest

/-- Assignment `addr->tcpr_s6_addr[0] = v`. -/
def set_first_byte (addr : List Nat) (v : Nat) : List Nat :=
  match addr with
  | [] => []
  | _ :: rest => v :: rest

/-- `randomize_ipv6_addr` (edit_packet.c:124): mix each 32-bit word, then
restore 0xff on the first byte if the input was multicast, or force 0xaa
if the mix incidentally produced a multicast-looking first byte. -/
def randomize_ipv6_addr (tcpedit : tcpedit_t) (addr : List Nat) : List Nat :=
  let was_multicast := is_multicast_ipv6 tcpedit addr
  let addr1 := randomize_words tcpedit.seed addr
  if was_multicast then set_first_byte addr1 0xff
  else if is_multicast_ipv6 tcpedit addr1 then set_first_byte addr1 0xaa
  else addr1

/-- `remap_ipv4` (edit_packet.c:475): splice the CIDR network onto the
high `masklen` bits of `original`.  Returns 0 when the CIDR family is not
AF_INET, and returns `original` when `skip_broadcast` is set and the
address is not unicast. -/
def remap_ipv4 (tcpedit : tcpedit_t) (cidr : tcpr_cidr_t) (original : Nat) : Nat :=
  if cidr.family ≠ AF_INET then 0
  else if tcpedit.skip_broadcast && !(is_unicast_ipv4 tcpedit original) then original
  else
    let mask := (0xffffffff <<< (32 - cidr.masklen)) % 4294967296
    let network := cidr.network &&& mask
    let mask2 := mask ^^^ 0xffffffff
    let ipaddr := original &&& mask2
    network ^^^ ipaddr

/-- Left shift `x << n` at `int` type with C11 6.5.7 semantics: undefined
(`none`) when the shift count is negative or at least the width, when the
left operand is negative, or when the value overflows `int`. -/
def shl_int (x n : Int) : Option Int :=
  if x < 0 ∨ n < 0 ∨ 32 ≤ n ∨ 2147483648 ≤ x * 2 ^ n.toNat then none
  else some (x * 2 ^ n.toNat)

/-- Right shift `x >> n` at `int` type: undefined (`none`) for a negative
or too-large count; a negative left operand is implementation-defined and
is also reported as `none`. -/
def shr_int (x n : Int) : Option Int :=
  if x < 0 ∨ n < 0 ∨ 32 ≤ n then none
  else some (x / 2 ^ n.toNat)

/-- The `for (i = 0; i < j; i++) addr[i] = network6[i]` loop of
`remap_ipv6`: the first `j` bytes come from the CIDR network, the rest
keep the original address bytes. -/
def copy_network_bytes (network6 addr : List Nat) (j : Nat) : List Nat :=
  (List.range addr.length).map fun i =>
    if i < j then network6.getD i 0 else addr.getD i 0

/-- `remap_ipv6` (edit_packet.c:510).  Returns the updated address bytes
and the C return value; `none` marks a run into C undefined behaviour.
After the whole-byte copy the C code executes

    k = ~0 << (8 - k);
    i = addr->tcpr_s6_addr[i] & k;
    addr->tcpr_s6_addr[i] = (cidr->u.network6.tcpr_s6_addr[j] & (0xff << (8 - k))) |
      (addr->tcpr_s6_addr[i] & (0xff >> k));

`~0` is the `int` value -1, so the first line left-shifts a negative value
(undefined behaviour, C11 6.5.7p4); the second line then overwrites the
loop index `i` with a masked byte value which is afterwards used as the
array index for the final splice.  The model mirrors each step and flags
the undefined operations. -/
def remap_ipv6 (tcpedit : tcpedit_t) (cidr : tcpr_cidr_t) (addr : List Nat) :
    Option (List Nat × Nat) :=
  if cidr.family ≠ AF_INET6 then some (addr, 0)
  else if tcpedit.skip_broadcast && is_multicast_ipv6 tcpedit addr then some (addr, 0)
  else
    let j := cidr.masklen / 8
    let addr1 := copy_network_bytes cidr.network6 addr j
    if cidr.masklen % 8 = 0 then some (addr1, 1)
    else
      match shl_int (-1) (8 - (cidr.masklen % 8 : Nat)) with
      | none => none
      | some kk =>
        let i : Int := Int.land (addr1.getD j 0 : Nat) kk
        if i < 0 ∨ 16 ≤ i then none
        else
          match shl_int 0xff (8 - kk), shr_int 0xff kk with
          | some m1, some m2 =>
              some (addr1.set i.toNat
                ((Int.lor (Int.land (cidr.network6.getD j 0 : Nat) m1)
                  (Int.land (addr1.getD i.toNat 0 : Nat) m2)).toNat % 256), 1)
          | _, _ => none

/-- Modelled from the spec: `ip_in_cidr` lives in `cidr.c`, which is not
under `src/`; per the glossary a CIDR is "a network address paired with a
prefix length specifying how many leading bits are the fixed network
portion", and an address falls within the CIDR when those leading bits
match the network. -/
def ip_in_cidr (cidr : tcpr_cidr_t) (ip : Nat) : Bool :=
  ip >>> (32 - cidr.masklen) == cidr.network >>> (32 - cidr.masklen)

/-- The `do { ... } while (loop)` chain walk of `rewrite_ipv4l3`
(edit_packet.c:587): `m1`/`m2` are the current entries of the source and
destination chains, `r1`/`r2` the remaining entries (the C `next`
pointers).  Each iteration consumes one unit of fuel; the wrapper passes
`r1.length + r2.length + 1`, which exceeds the largest possible number of
iterations because every continuing iteration shortens `r1` or `r2`, so
the fuel-exhausted branch is unreachable from `rewrite_ipv4l3`. -/
def cidr_walk (tcpedit : tcpedit_t) :
    Nat → tcpr_cidrmap_t → List tcpr_cidrmap_t → tcpr_cidrmap_t →
    List tcpr_cidrmap_t → Nat → Nat → Bool → Bool → Nat × Nat × Nat
  | 0, _, _, _, _, ipsrc, ipdst, didsrc, diddst =>
      (ipsrc, ipdst, (if diddst then 1 else 0) + (if didsrc then 1 else 0))
  | fuel + 1, m1, r1, m2, r2, ipsrc, ipdst, didsrc, diddst =>
      let step2 := if !diddst && ip_in_cidr m2.cfrom ipdst then
          (remap_ipv4 tcpedit m2.cto ipdst, true) else (ipdst, diddst)
      let step1 := if !didsrc && ip_in_cidr m1.cfrom ipsrc then
          (remap_ipv4 tcpedit m1.cto ipsrc, true) else (ipsrc, didsrc)
      if !(step2.2 && step1.2) && !(r1.isEmpty && r2.isEmpty) then
        cidr_walk tcpedit fuel (r1.headD m1) r1.tail (r2.headD m2) r2.tail
          step1.1 step2.1 step1.2 step2.2
      else
        (step1.1, step2.1, (if step2.2 then 1 else 0) + (if step1.2 then 1 else 0))

/-- `rewrite_ipv4l3` (edit_packet.c:549): apply the direct src/dst maps,
then walk the direction-selected CIDR chains.  Result: the new source
address, the new destination address, and the C return value (number of
fields changed).  `none` marks the NULL dereference the C code would
perform when the selected secondary chain is absent while `cidrmap1` is
not. -/
def rewrite_ipv4l3 (tcpedit : tcpedit_t) (ipsrc ipdst : Nat) (direction : TcprDir) :
    Option (Nat × Nat × Nat) :=
  let ipsrc1 := match tcpedit.srcipmap with
    | some m => if ip_in_cidr m.cfrom ipsrc then remap_ipv4 tcpedit m.cto ipsrc else ipsrc
    | none => ipsrc
  let ipdst1 := match tcpedit.dstipmap with
    | some m => if ip_in_cidr m.cfrom ipdst then remap_ipv4 tcpedit m.cto ipdst else ipdst
    | none => ipdst
  if tcpedit.cidrmap1 = [] then some (ipsrc1, ipdst1, 0)
  else
    let chains := if direction = TcprDir.c2s then (tcpedit.cidrmap1, tcpedit.cidrmap2)
      else (tcpedit.cidrmap2, tcpedit.cidrmap1)
    match chains.1, chains.2 with
    | m1 :: r1, m2 :: r2 =>
        some (cidr_walk tcpedit (r1.length + r2.length + 1) m1 r1 m2 r2
          ipsrc1 ipdst1 false false)
    | _, _ => none

/-- `rewrite_ipv4_ttl` (edit_packet.c:396).  The header is `some ttl` when
an IPv4 header is present; the result is the new header TTL paired with
the return value (0 no change, 1 changed).  The C `default:` arm calls
`errx` on an out-of-range enum value, which the `TtlMode` inductive rules
out. -/
def rewrite_ipv4_ttl (tcpedit : tcpedit_t) (ip_hdr : Option Nat) : Option Nat × Nat :=
  match ip_hdr with
  | none => (none, 0)
  | some ttl =>
    match tcpedit.ttl_mode with
    | TtlMode.off => (some ttl, 0)
    | TtlMode.set =>
        if ttl = tcpedit.ttl_value then (some ttl, 0) else (some tcpedit.ttl_value, 1)
    | TtlMode.add =>
        if 255 < ttl + tcpedit.ttl_value then (some 255, 1)
        else (some (ttl + tcpedit.ttl_value), 1)
    | TtlMode.sub =>
        if ttl ≤ tcpedit.ttl_value then (some 1, 1)
        else (some (ttl - tcpedit.ttl_value), 1)

/-- `rewrite_ipv6_hlim` (edit_packet.c:435): identical state machine over
the IPv6 hop-limit field. -/
def rewrite_ipv6_hlim (tcpedit : tcpedit_t) (ip6_hdr : Option Nat) : Option Nat × Nat :=
  match ip6_hdr with
  | none => (none, 0)
  | some hlim =>
    match tcpedit.ttl_mode with
    | TtlMode.off => (some hlim, 0)
    | TtlMode.set =>
        if hlim = tcpedit.ttl_value then (some hlim, 0) else (some tcpedit.ttl_value, 1)
    | TtlMode.add =>
        if 255 < hlim + tcpedit.ttl_value then (some 255, 1)
        else (some (hlim + tcpedit.ttl_value), 1)
    | TtlMode.sub =>
        if hlim ≤ tcpedit.ttl_value then (some 1, 1)
        else (some (hlim - tcpedit.ttl_value), 1)

/-- Result record for `untrunc_packet`: the updated packet descriptor, the
IPv4/IPv6 total-length fields (absent when the corresponding header is
absent), and the C return value. -/
structure untrunc_out where
  caplen : Nat
  len : Nat
  ip4_len : Option Nat
  ip6_len : Option Nat
  ret : Nat
deriving DecidableEq, Repr

/-- `untrunc_packet` (edit_packet.c:242).  `ip4_len`/`ip6_len` carry the
current IP total-length field when the respective header pointer is
non-NULL.  `Except.error` marks the C error returns and, in TRUNC mode,
the NULL dereference performed when `len != caplen` and `ip_hdr` is NULL
(line 282 writes `ip_hdr->ip_len` without a NULL check).  Assignments to
the 16-bit `ip_len` field truncate `% 65536` (`htons` is the identity in
the big-endian model); the model assumes `caplen ≥ l2len` where the C
subtracts them. -/
def untrunc_packet (tcpedit : tcpedit_t) (hdr : pcap_pkthdr)
    (ip4_len : Option Nat) (ip6_len : Option Nat) : Except String untrunc_out :=
  if (hdr.caplen = hdr.len ∨ (ip4_len = none ∧ ip6_len = none)) ∧ ¬ tcpedit.mtu_truncate then
    Except.ok ⟨hdr.caplen, hdr.len, ip4_len, ip6_len, 0⟩
  else if tcpedit.l2len < 0 then
    Except.error "Non-sensical layer 2 length"
  else if tcpedit.fixlen = Fixlen.pad then
    if hdr.caplen < hdr.len then
      Except.ok ⟨hdr.len, hdr.len, ip4_len, ip6_len, 1⟩
    else if hdr.len < hdr.caplen then
      Except.error "WTF?  Why is your packet larger then the capture len?"
    else
      Except.ok ⟨hdr.caplen, hdr.len, ip4_len, ip6_len, 1⟩
  else if tcpedit.fixlen = Fixlen.trunc then
    if hdr.len ≠ hdr.caplen then
      match ip4_len with
      | none => Except.error "NULL dereference: ip_hdr->ip_len written with ip_hdr == NULL"
      | some _ =>
          Except.ok ⟨hdr.caplen, hdr.caplen,
            some ((hdr.caplen - tcpedit.l2len.toNat) % 65536), ip6_len, 1⟩
    else
      Except.ok ⟨hdr.caplen, hdr.caplen, ip4_len, ip6_len, 1⟩
  else if tcpedit.mtu_truncate then
    if tcpedit.mtu + tcpedit.l2len.toNat < hdr.len then
      match ip4_len, ip6_len with
      | some _, _ =>
          Except.ok ⟨tcpedit.l2len.toNat + tcpedit.mtu, tcpedit.l2len.toNat + tcpedit.mtu,
            some (tcpedit.mtu % 65536), ip6_len, 1⟩
      | none, some _ =>
          Except.ok ⟨tcpedit.l2len.toNat + tcpedit.mtu, tcpedit.l2len.toNat + tcpedit.mtu,
            none, some ((tcpedit.mtu - 40) % 65536), 1⟩
      | none, none =>
          Except.ok ⟨tcpedit.l2len.toNat + tcpedit.mtu, tcpedit.l2len.toNat + tcpedit.mtu,
            none, none, 0⟩
    else
      Except.ok ⟨hdr.caplen, hdr.len, ip4_len, ip6_len, 1⟩
  else
    Except.error "Invalid fixlen value"

/-- `extract_data` (edit_packet.c:314) for an already-classified IPv4
packet (the claim's premise; `get_ipv4` returning NULL is the only path
not taken here).  Arguments are the captured length and the header fields
the function reads: `ip_len` (total length, host value), `ip_hl` (header
length in words), `ip_p` (protocol), `th_off` (TCP data offset, read only
on the TCP path).  Result: `none` for the `nodata` / `return 0` exits,
otherwise `(datalen, offset)` where `offset` is the distance of the
returned `dataptr` from the start of the IP header. -/
def extract_data (tcpedit : tcpedit_t) (caplen : Int)
    (ip_len ip_hl ip_p th_off : Nat) : Option (Int × Int) :=
  let datalen0 : Int := if (ip_len : Int) < caplen then ip_len else caplen - tcpedit.l2len
  let datalen1 : Int := datalen0 - (ip_hl * 4 : Nat)
  if datalen1 ≤ 0 then none
  else if ip_p = IPPROTO_TCP then
    let d2 := datalen1 - (th_off * 4 : Nat)
    if d2 ≤ 0 then none else some (d2, ((ip_hl * 4 + th_off * 4 : Nat) : Int))
  else if ip_p = IPPROTO_UDP then
    let d2 := datalen1 - (TCPR_UDP_H : Nat)
    if d2 ≤ 0 then none else some (d2, ((ip_hl * 4 + TCPR_UDP_H : Nat) : Int))
  else if ip_p = IPPROTO_ICMP then none
  else some (datalen1, 0)

/-- `fix_ipv4_checksums` (edit_packet.c:55).  `retL4`/`retL3` stand for
the values the external `do_checksum` routine (checksum.c, outside src/)
would return for the L4 and L3 calls.  Result: whether the L4
recomputation was invoked, whether the L3 recomputation was invoked, and
the function's return status. -/
def fix_ipv4_checksums (retL4 retL3 : Int) (caplen len ip_off : Nat) :
    Bool × Bool × Int :=
  let doL4 : Bool := decide (caplen = len ∧ ip_off &&& IP_OFFMASK = 0)
  let ret1 : Int := if doL4 then retL4 else 0
  if doL4 && decide (retL4 < 0) then (true, false, TCPEDIT_ERROR)
  else if retL3 < 0 then (doL4, true, TCPEDIT_ERROR)
  else if ret1 = TCPEDIT_WARN ∨ retL3 = TCPEDIT_WARN then (doL4, true, TCPEDIT_WARN)
  else (doL4, true, TCPEDIT_OK)

/-- The XOR-minus-AND word mix is the identity at seed 0. -/
theorem rand_u32_zero (w : Nat) (h : w < 4294967296) : rand_u32 0 w = w := by
  simp only [rand_u32, Nat.xor_zero, Nat.and_zero]
  omega

/-- Decomposing a word built from four in-range bytes returns the bytes. -/
theorem bytes_word_roundtrip (b0 b1 b2 b3 : Nat) (h0 : b0 < 256) (h1 : b1 < 256)
    (h2 : b2 < 256) (h3 : b3 < 256) :
    bytes_of_word (word_of_bytes b0 b1 b2 b3) = [b0, b1, b2, b3] := by
  simp only [bytes_of_word, word_of_bytes, List.cons.injEq, and_true]
  refine ⟨?_, ?_, ?_, ?_⟩ <;> omega

/-- A word built from four bytes fits in 32 bits. -/
theorem word_of_bytes_lt (b0 b1 b2 b3 : Nat) (h0 : b0 < 256) (h1 : b1 < 256)
    (h2 : b2 < 256) (h3 : b3 < 256) : word_of_bytes b0 b1 b2 b3 < 4294967296 := by
  simp only [word_of_bytes]
  omega

/-- The word loop of `randomize_ipv6_addr` is the identity at seed 0. -/
theorem randomize_words_zero : ∀ (addr : List Nat), (∀ b ∈ addr, b < 256) →
    randomize_words 0 addr = addr
  | [], _ => rfl
  | [_], _ => rfl
  | [_, _], _ => rfl
  | [_, _, _], _ => rfl
  | b0 :: b1 :: b2 :: b3 :: rest, h => by
      have h0 : b0 < 256 := h b0 (by simp)
      have h1 : b1 < 256 := h b1 (by simp)
      have h2 : b2 < 256 := h b2 (by simp)
      have h3 : b3 < 256 := h b3 (by simp)
      have hr := randomize_words_zero rest (fun b hb => h b (by simp [hb]))
      rw [randomize_words, rand_u32_zero _ (word_of_bytes_lt b0 b1 b2 b3 h0 h1 h2 h3),
        bytes_word_roundtrip b0 b1 b2 b3 h0 h1 h2 h3, hr]
      rfl

/-- C1 (confirmed): for every AF_INET CIDR with prefix length 1..32 and
every 32-bit address not skipped by the broadcast check, `remap_ipv4`
keeps the low `32 - masklen` bits of the address and takes the high
`masklen` bits from the CIDR network; in particular 10.0.0.0/8 maps
192.168.55.123 to 10.168.55.123 and 10.150.9.0/24 maps it to
10.150.9.123. -/
theorem remap_ipv4_preserves_host_bits :
    (∀ (e : tcpedit_t) (c : tcpr_cidr_t) (a : Nat),
      c.family = AF_INET → 0 < c.masklen → c.masklen ≤ 32 →
      c.network < 4294967296 → a < 4294967296 →
      (e.skip_broadcast = false ∨ a ≤ 3758096384) →
      remap_ipv4 e c a >>> (32 - c.masklen) = c.network >>> (32 - c.masklen) ∧
      remap_ipv4 e c a % 2 ^ (32 - c.masklen) = a % 2 ^ (32 - c.masklen)) ∧
    remap_ipv4 edit0 ⟨AF_INET, 8, 0x0A000000, []⟩ 0xC0A8377B = 0x0AA8377B ∧
    remap_ipv4 edit0 ⟨AF_INET, 24, 0x0A960900, []⟩ 0xC0A8377B = 0x0A96097B := by
  refine ⟨?_, by decide, by decide⟩
  intro e c a hf h0 h32 hn ha hskip
  have hskip' : (e.skip_broadcast && !(is_unicast_ipv4 e a)) = false := by
    rcases hskip with h | h
    · simp [h]
    · simp [is_unicast_ipv4, Nat.not_lt.mpr h]
  have hform : remap_ipv4 e c a =
      (c.network &&& ((4294967295 <<< (32 - c.masklen)) % 4294967296)) ^^^
      (a &&& (((4294967295 <<< (32 - c.masklen)) % 4294967296) ^^^ 4294967295)) := by
    rw [remap_ipv4, if_neg (by simp [hf]), if_neg (by simp [hskip'])]
  have h2p32 : (4294967296 : Nat) = 2 ^ 32 := by norm_num
  have hones : (4294967295 : Nat) = 2 ^ 32 - 1 := by norm_num
  have hmaskbit : ∀ i, Nat.testBit ((4294967295 <<< (32 - c.masklen)) % 4294967296) i =
      (decide (32 - c.masklen ≤ i) && decide (i < 32)) := by
    intro i
    rw [h2p32, hones]
    simp only [Nat.testBit_mod_two_pow, Nat.testBit_shiftLeft, Nat.testBit_two_pow_sub_one]
    by_cases h1 : 32 - c.masklen ≤ i <;> by_cases hi : i < 32 <;>
      first
        | (simp [h1, hi]; omega)
        | simp [h1, hi]
  have honesbit : ∀ i, Nat.testBit 4294967295 i = decide (i < 32) := by
    intro i
    rw [hones]
    exact Nat.testBit_two_pow_sub_one 32 i
  have hnbit : ∀ i, 32 ≤ i → Nat.testBit c.network i = false := fun i hi =>
    Nat.testBit_lt_two_pow (by calc c.network < 4294967296 := hn
                                _ = 2 ^ 32 := h2p32
                                _ ≤ 2 ^ i := Nat.pow_le_pow_right (by norm_num) hi)
  have habit : ∀ i, 32 ≤ i → Nat.testBit a i = false := fun i hi =>
    Nat.testBit_lt_two_pow (by calc a < 4294967296 := ha
                                _ = 2 ^ 32 := h2p32
                                _ ≤ 2 ^ i := Nat.pow_le_pow_right (by norm_num) hi)
  constructor
  · apply Nat.eq_of_testBit_eq
    intro i
    rw [hform]
    simp only [Nat.testBit_shiftRight, Nat.testBit_xor, Nat.testBit_land, hmaskbit, honesbit]
    by_cases hi : 32 - c.masklen + i < 32
    · simp [hi, Nat.le_add_right]
    · have hn' := hnbit (32 - c.masklen + i) (by omega)
      have ha' := habit (32 - c.masklen + i) (by omega)
      simp [hi, hn', ha']
  · apply Nat.eq_of_testBit_eq
    intro i
    rw [hform]
    simp only [Nat.testBit_mod_two_pow, Nat.testBit_xor, Nat.testBit_land, hmaskbit, honesbit]
    by_cases hi : i < 32 - c.masklen
    · simp [hi, show ¬ (32 - c.masklen ≤ i) by omega, show i < 32 by omega]
    · simp [hi]

/-- Witness for C1: the /24 example instantiates the universal part. -/
theorem remap_ipv4_preserves_host_bits_witness :
    remap_ipv4 edit0 ⟨AF_INET, 24, 0x0A960900, []⟩ 0xC0A8377B >>> 8 =
      (0x0A960900 : Nat) >>> 8 ∧
    remap_ipv4 edit0 ⟨AF_INET, 24, 0x0A960900, []⟩ 0xC0A8377B % 2 ^ 8 =
      (0xC0A8377B : Nat) % 2 ^ 8 :=
  remap_ipv4_preserves_host_bits.1 edit0 ⟨AF_INET, 24, 0x0A960900, []⟩ 0xC0A8377B
    rfl (by decide) (by decide) (by decide) (by decide) (Or.inl rfl)

/-- C2 (code_bug): for an AF_INET6 CIDR whose prefix length is not a
multiple of 8 (here masklen = 12), `remap_ipv6` runs into C undefined
behaviour instead of performing the claimed defined splice
`(network_bits & mask) | (host_bits & ~mask)` on byte `masklen / 8`:
`k = ~0 << (8 - k)` left-shifts the negative value `~0`, and the next
line overwrites the loop index `i` with `addr[j] & k`, so the final write
would not even target byte `j`. -/
theorem remap_ipv6_partial_byte_undefined :
    remap_ipv6 edit0
      ⟨AF_INET6, 12, 0, [0xff, 0x0b, 0, 0, 0, 0, 0, 0, 0, 0, 0, 0, 0, 0, 0, 0]⟩
      [0x20, 0x34, 1, 2, 3, 4, 5, 6, 7, 8, 9, 10, 11, 12, 13, 14] = none := by
  decide

/-- Concrete direct source-map whose "to" CIDR is AF_INET6: used for C3. -/
def cm3 : tcpr_cidrmap_t :=
  ⟨⟨AF_INET, 24, 0xC0A80100, []⟩, ⟨AF_INET6, 24, 0, []⟩⟩

/-- Counterexample for C3 as stated: with a source map whose from-CIDR
matches source address 192.168.1.1 and whose to-CIDR has family AF_INET6,
`rewrite_ipv4l3` does not leave the source field unchanged: it stores
`remap_ipv4`'s mismatch result 0, so the header now carries 0.0.0.0. -/
theorem rewrite_ipv4l3_family_mismatch_counterexample :
    rewrite_ipv4l3 { edit0 with srcipmap := some cm3 } 0xC0A80101 0x01020304
      TcprDir.c2s = some (0, 0x01020304, 0) ∧ (0 : Nat) ≠ 0xC0A80101 := by
  exact ⟨by decide, by decide⟩

/-- C3 (corrected): when a configured source map's to-CIDR family is not
AF_INET and the source address falls in its from-CIDR, the source field
is overwritten with `remap_ipv4`'s no-op signal 0 (0.0.0.0) rather than
left unchanged (stated here with no other maps or chains configured). -/
theorem rewrite_ipv4l3_family_mismatch_zeroes_field (e : tcpedit_t)
    (m : tcpr_cidrmap_t) (ipsrc ipdst : Nat) (hs : e.srcipmap = some m)
    (hf : m.cto.family ≠ AF_INET) (hin : ip_in_cidr m.cfrom ipsrc = true)
    (hd : e.dstipmap = none) (hc : e.cidrmap1 = []) :
    rewrite_ipv4l3 e ipsrc ipdst TcprDir.c2s = some (0, ipdst, 0) := by
  simp only [rewrite_ipv4l3, hs, hd, hc, hin, remap_ipv4]
  simp [hf]

/-- Witness for C3's amended theorem at the counterexample input. -/
theorem rewrite_ipv4l3_family_mismatch_zeroes_field_witness :
    rewrite_ipv4l3 { edit0 with srcipmap := some cm3 } 0xC0A80101 0x01020304
      TcprDir.c2s = some (0, 0x01020304, 0) :=
  rewrite_ipv4l3_family_mismatch_zeroes_field _ cm3 0xC0A80101 0x01020304 rfl
    (by decide) (by decide) rfl rfl

/-- C4 (code_bug): with `skip_broadcast` set and seed 1, the boundary
address 224.0.0.0 (3758096384) is *not* returned unchanged — the strict
`>` in `is_unicast_ipv4` classifies it as unicast, so it is randomized to
224.0.0.1, while the claim (and the C comment "multicast/broadcast is
224.0.0.0 or greater") require the whole ≥ 224.0.0.0 range to be
skipped. -/
theorem randomize_ipv4_addr_multicast_base_changed :
    randomize_ipv4_addr { edit0 with skip_broadcast := true, seed := 1 }
      3758096384 = 3758096385 ∧ (3758096385 : Nat) ≠ 3758096384 := by
  exact ⟨by decide, by decide⟩

/-- C5 (code_bug): in TRUNCATE fixlen mode, a packet with `caplen ≠ len`
and no IPv4 header (IPv6-only) drives `untrunc_packet` into the NULL
dereference at edit_packet.c:282 (`ip_hdr->ip_len = ...` with
`ip_hdr == NULL`), instead of the claimed safe `len = caplen` update; the
companion conjunct shows the defined IPv4 path the claim describes
(caplen 40, l2len 14 gives an ip_len field of 26). -/
theorem untrunc_packet_trunc_null_ipv4 :
    untrunc_packet { edit0 with fixlen := Fixlen.trunc } ⟨40, 60⟩ none (some 40) =
      Except.error "NULL dereference: ip_hdr->ip_len written with ip_hdr == NULL" ∧
    untrunc_packet { edit0 with fixlen := Fixlen.trunc } ⟨40, 60⟩ (some 60) none =
      Except.ok ⟨40, 40, some 26, none, 1⟩ := by
  exact ⟨rfl, rfl⟩

/-- C6 (code_bug): for an IPv4 packet with an unknown transport protocol
(47, GRE), a 20-byte header (`ip_hl = 5`), `ip_len = 30`, `caplen = 50`
and `l2len = 14`, `extract_data` returns length 10 (the bytes past the IP
header) but a `dataptr` offset of 0 — the start of the IP header — because
the unknown-protocol arm resets `dataptr = (u_char *)ip_hdr`, while the
claim (and the code's own "dump everything past the IP header" comment)
require the first byte past the header, offset `ip_hl * 4 = 20`. -/
theorem extract_data_unknown_proto_offset :
    extract_data edit0 50 30 5 47 0 = some (10, 0) ∧ (0 : Int) ≠ 20 := by
  exact ⟨by decide, by decide⟩

/-- C7 (confirmed): with a 2-entry primary chain and a 1-entry secondary
chain, a destination matching the secondary chain's only entry and a
source matching the primary chain's second entry (and not its first), the
chain walk of `rewrite_ipv4l3` terminates with exactly 2 fields
changed. -/
theorem rewrite_ipv4l3_chain_walk_two_changes (e : tcpedit_t)
    (p1 p2 s1 : tcpr_cidrmap_t) (ipsrc ipdst : Nat)
    (hsm : e.srcipmap = none) (hdm : e.dstipmap = none)
    (hc1 : e.cidrmap1 = [p1, p2]) (hc2 : e.cidrmap2 = [s1])
    (h1 : ip_in_cidr s1.cfrom ipdst = true)
    (h2 : ip_in_cidr p1.cfrom ipsrc = false)
    (h3 : ip_in_cidr p2.cfrom ipsrc = true) :
    (rewrite_ipv4l3 e ipsrc ipdst TcprDir.c2s).map (fun r => r.2.2) = some 2 := by
  simp only [rewrite_ipv4l3, hsm, hdm, hc1, hc2]
  simp only [List.cons_ne_nil, if_false, reduceCtorEq, ite_false, ite_true, if_true]
  simp [cidr_walk, h1, h2, h3]

/-- First primary-chain entry for the C7 witness (192.168.0.0/24, not
matching the witness source address). -/
def p1c : tcpr_cidrmap_t :=
  ⟨⟨AF_INET, 24, 0xC0A80000, []⟩, ⟨AF_INET, 24, 0xC0A80100, []⟩⟩

/-- Second primary-chain entry for the C7 witness (10.0.0.0/24). -/
def p2c : tcpr_cidrmap_t :=
  ⟨⟨AF_INET, 24, 0x0A000000, []⟩, ⟨AF_INET, 24, 0x0A000100, []⟩⟩

/-- Only secondary-chain entry for the C7 witness (172.16.0.0/24). -/
def s1c : tcpr_cidrmap_t :=
  ⟨⟨AF_INET, 24, 0xAC100000, []⟩, ⟨AF_INET, 24, 0xAC100100, []⟩⟩

/-- Configuration with the mismatched-length chains of the C7 witness. -/
def e7 : tcpedit_t := { edit0 with cidrmap1 := [p1c, p2c], cidrmap2 := [s1c] }

/-- Witness for C7: source 10.0.0.5 and destination 172.16.0.7 against
the concrete 2-entry/1-entry chains give exactly 2 changes. -/
theorem rewrite_ipv4l3_chain_walk_two_changes_witness :
    (rewrite_ipv4l3 e7 0x0A000005 0xAC100007 TcprDir.c2s).map
      (fun r => r.2.2) = some 2 :=
  rewrite_ipv4l3_chain_walk_two_changes e7 p1c p2c s1c 0x0A000005 0xAC100007
    rfl rfl rfl rfl (by decide) (by decide) (by decide)

/-- C8 (confirmed): TTL/hop-limit rewriting saturates — SUBTRACT mode
never yields a value below 1, ADD mode never yields a value above 255,
and SET mode with the current value reports no change and leaves the
field as is; for both `rewrite_ipv4_ttl` and `rewrite_ipv6_hlim`. -/
theorem ttl_rewrite_saturation :
    (∀ (e : tcpedit_t) (ttl : Nat), e.ttl_mode = TtlMode.sub →
      1 ≤ (rewrite_ipv4_ttl e (some ttl)).1.getD 0) ∧
    (∀ (e : tcpedit_t) (ttl : Nat), e.ttl_mode = TtlMode.add →
      (rewrite_ipv4_ttl e (some ttl)).1.getD 0 ≤ 255) ∧
    (∀ (e : tcpedit_t) (ttl : Nat), e.ttl_mode = TtlMode.set → e.ttl_value = ttl →
      rewrite_ipv4_ttl e (some ttl) = (some ttl, 0)) ∧
    (∀ (e : tcpedit_t) (hlim : Nat), e.ttl_mode = TtlMode.sub →
      1 ≤ (rewrite_ipv6_hlim e (some hlim)).1.getD 0) ∧
    (∀ (e : tcpedit_t) (hlim : Nat), e.ttl_mode = TtlMode.add →
      (rewrite_ipv6_hlim e (some hlim)).1.getD 0 ≤ 255) ∧
    (∀ (e : tcpedit_t) (hlim : Nat), e.ttl_mode = TtlMode.set → e.ttl_value = hlim →
      rewrite_ipv6_hlim e (some hlim) = (some hlim, 0)) := by
  refine ⟨?_, ?_, ?_, ?_, ?_, ?_⟩
  · intro e ttl hm
    have hu : rewrite_ipv4_ttl e (some ttl) =
        if ttl ≤ e.ttl_value then (some 1, 1) else (some (ttl - e.ttl_value), 1) := by
      simp [rewrite_ipv4_ttl, hm]
    rw [hu]
    split
    · simp
    · simp
      omega
  · intro e ttl hm
    have hu : rewrite_ipv4_ttl e (some ttl) =
        if 255 < ttl + e.ttl_value then (some 255, 1)
        else (some (ttl + e.ttl_value), 1) := by
      simp [rewrite_ipv4_ttl, hm]
    rw [hu]
    split
    · simp
    · simp
      omega
  · intro e ttl hm hv
    simp [rewrite_ipv4_ttl, hm, hv]
  · intro e hlim hm
    have hu : rewrite_ipv6_hlim e (some hlim) =
        if hlim ≤ e.ttl_value then (some 1, 1) else (some (hlim - e.ttl_value), 1) := by
      simp [rewrite_ipv6_hlim, hm]
    rw [hu]
    split
    · simp
    · simp
      omega
  · intro e hlim hm
    have hu : rewrite_ipv6_hlim e (some hlim) =
        if 255 < hlim + e.ttl_value then (some 255, 1)
        else (some (hlim + e.ttl_value), 1) := by
      simp [rewrite_ipv6_hlim, hm]
    rw [hu]
    split
    · simp
    · simp
      omega
  · intro e hlim hm hv
    simp [rewrite_ipv6_hlim, hm, hv]

/-- Witness for C8: SUB 3-10 floors at 1, ADD 100+200 caps at 255, SET 64
on 64 is a no-change, for both IPv4 and IPv6. -/
theorem ttl_rewrite_saturation_witness :
    1 ≤ (rewrite_ipv4_ttl { edit0 with ttl_mode := TtlMode.sub, ttl_value := 10 }
      (some 3)).1.getD 0 ∧
    (rewrite_ipv4_ttl { edit0 with ttl_mode := TtlMode.add, ttl_value := 200 }
      (some 100)).1.getD 0 ≤ 255 ∧
    rewrite_ipv4_ttl { edit0 with ttl_mode := TtlMode.set, ttl_value := 64 }
      (some 64) = (some 64, 0) ∧
    1 ≤ (rewrite_ipv6_hlim { edit0 with ttl_mode := TtlMode.sub, ttl_value := 10 }
      (some 3)).1.getD 0 ∧
    (rewrite_ipv6_hlim { edit0 with ttl_mode := TtlMode.add, ttl_value := 200 }
      (some 100)).1.getD 0 ≤ 255 ∧
    rewrite_ipv6_hlim { edit0 with ttl_mode := TtlMode.set, ttl_value := 64 }
      (some 64) = (some 64, 0) :=
  ⟨ttl_rewrite_saturation.1 _ 3 rfl,
   ttl_rewrite_saturation.2.1 _ 100 rfl,
   ttl_rewrite_saturation.2.2.1 _ 64 rfl rfl,
   ttl_rewrite_saturation.2.2.2.1 _ 3 rfl,
   ttl_rewrite_saturation.2.2.2.2.1 _ 100 rfl,
   ttl_rewrite_saturation.2.2.2.2.2 _ 64 rfl rfl⟩

/-- C9 (confirmed): a partial capture (`caplen < len`) makes
`fix_ipv4_checksums` skip the L4 `do_checksum` call while still invoking
the L3 (IP header) one, and the L4 call only ever happens when
`caplen = len` and the low 13 bits of the fragment-offset field are
zero. -/
theorem fix_ipv4_checksums_l4_skip (retL4 retL3 : Int) (caplen len ip_off : Nat) :
    (caplen < len →
      (fix_ipv4_checksums retL4 retL3 caplen len ip_off).1 = false ∧
      (fix_ipv4_checksums retL4 retL3 caplen len ip_off).2.1 = true) ∧
    ((fix_ipv4_checksums retL4 retL3 caplen len ip_off).1 = true →
      caplen = len ∧ ip_off &&& IP_OFFMASK = 0) := by
  constructor
  · intro hlt
    have hne : caplen ≠ len := Nat.ne_of_lt hlt
    have hd4 : decide (caplen = len ∧ ip_off &&& IP_OFFMASK = 0) = false := by
      simp [hne]
    simp only [fix_ipv4_checksums, hd4, Bool.false_and]
    split_ifs <;> simp_all
  · intro h1
    by_cases hd : caplen = len ∧ ip_off &&& IP_OFFMASK = 0
    · exact hd
    · exfalso
      have hd4 : decide (caplen = len ∧ ip_off &&& IP_OFFMASK = 0) = false := by
        simpa using hd
      simp only [fix_ipv4_checksums, hd4, Bool.false_and] at h1
      split_ifs at h1 <;> simp_all

/-- Witness for C9: a 40-of-60-byte capture skips L4 and keeps L3, and a
complete unfragmented 50-byte capture that does run L4 satisfies the
stated conditions. -/
theorem fix_ipv4_checksums_l4_skip_witness :
    ((fix_ipv4_checksums 0 0 40 60 0).1 = false ∧
     (fix_ipv4_checksums 0 0 40 60 0).2.1 = true) ∧
    (50 = 50 ∧ (0 : Nat) &&& IP_OFFMASK = 0) :=
  ⟨(fix_ipv4_checksums_l4_skip 0 0 40 60 0).1 (by decide),
   (fix_ipv4_checksums_l4_skip 0 0 50 50 0).2 (by decide)⟩

/-- C10 (confirmed): with seed 0 both randomizers are the identity —
`randomize_ipv4_addr` returns every 32-bit address unchanged, and
`randomize_ipv6_addr` leaves all bytes of an address of in-range bytes
unchanged (the multicast fix-ups preserve an unchanged address). -/
theorem zero_seed_randomize_identity :
    (∀ (e : tcpedit_t) (ip : Nat), e.seed = 0 → ip < 4294967296 →
      randomize_ipv4_addr e ip = ip) ∧
    (∀ (e : tcpedit_t) (addr : List Nat), e.seed = 0 → (∀ b ∈ addr, b < 256) →
      randomize_ipv6_addr e addr = addr) := by
  constructor
  · intro e ip hs hip
    rw [randomize_ipv4_addr, hs]
    split
    · rfl
    · exact rand_u32_zero ip hip
  · intro e addr hs hb
    rw [randomize_ipv6_addr]
    simp only [hs, randomize_words_zero addr hb]
    by_cases hm : is_multicast_ipv6 e addr = true
    · simp only [hm, if_true]
      cases addr with
      | nil => rfl
      | cons b rest =>
          have hb255 : b = 255 := by
            simpa [is_multicast_ipv6] using hm
          simp [set_first_byte, hb255]
    · simp [hm]

/-- Witness for C10: seed 0 leaves 192.168.55.123 and a multicast IPv6
address untouched. -/
theorem zero_seed_randomize_identity_witness :
    randomize_ipv4_addr { edit0 with seed := 0 } 0xC0A8377B = 0xC0A8377B ∧
    randomize_ipv6_addr { edit0 with seed := 0 }
      [255, 1, 2, 3, 4, 5, 6, 7, 8, 9, 10, 11, 12, 13, 14, 15] =
      [255, 1, 2, 3, 4, 5, 6, 7, 8, 9, 10, 11, 12, 13, 14, 15] :=
  ⟨zero_seed_randomize_identity.1 _ 0xC0A8377B rfl (by decide),
   zero_seed_randomize_identity.2 _ _ rfl (by decide)⟩
